import Mathlib

/-!
# Verification of the Steam network force-view graph model (src/force.js)

A shallow embedding of the force-directed network view's model-build
pipeline (`loadAndBuild`), level-of-detail edge culling (`render`),
viewport fitting (`fitToScreen`), drag pinning, mode setters, search
(`selectGame`) and offscreen export (`exportRender`), together with
theorems settling the specification's claims about them.

JavaScript numbers are modelled as rationals (`ℚ`); all arithmetic in
the modelled code paths is order/comparison arithmetic for which `ℚ`
is faithful. Node-object references are modelled by dense indices.
-/

namespace SteamForce

/-- Tuning constant `MIN_RENDER_WEIGHT = 50` (force.js:58): minimum
weight for rendered edges. -/
def MIN_RENDER_WEIGHT : ℚ := 50

/-- Tuning constant `MAX_FORCE_LINKS = 20000` (force.js:57): cap on the
number of links used for force calculation. -/
def MAX_FORCE_LINKS : ℕ := 20000

/-- A raw input node (`netData.nodes` entry): external id, title, and an
optional warm-start position from the layout file (`positions[n.id]`,
force.js:111); nodes without a position are skipped at build time. -/
structure RawNode where
  id : String
  title : String
  pos : Option (ℚ × ℚ)
deriving Repr, DecidableEq

/-- A raw input link (`netData.links` entry): original node indices and
a weight (force.js:137-142). -/
structure RawLink where
  source : ℕ
  target : ℕ
  weight : ℚ
deriving Repr, DecidableEq

/-- A render link `{si, ti, weight}` (force.js:24, 142): endpoints are
dense simulation indices. -/
structure Link where
  si : ℕ
  ti : ℕ
  weight : ℚ
deriving Repr, DecidableEq

/-- A physics link `{source, target, weight}` (force.js:163-168),
a separate copy of a render link used by the force solver. -/
structure ForceLink where
  source : ℕ
  target : ℕ
  weight : ℚ
deriving Repr, DecidableEq

/-- The dense simulation index assigned to original node index `i`
(`simIdxByOrigIdx`, force.js:107-129): nodes lacking a warm-start
position are skipped; surviving nodes are numbered in input order. -/
def denseIndex (nodes : List RawNode) (i : ℕ) : Option ℕ :=
  match nodes.get? i with
  | none => none
  | some n =>
    if n.pos.isSome then some ((nodes.take i).countP (fun m => m.pos.isSome)) else none

/-- One step of the stable descending insertion used to model
`renderLinks.sort((a, b) => b.weight - a.weight)` (force.js:144):
insert `a` in front of the first element of strictly smaller weight. -/
def insertDesc (a : Link) : List Link → List Link
  | [] => [a]
  | b :: bs => if b.weight < a.weight then a :: b :: bs else b :: insertDesc a bs

/-- Sort links descending by weight (`renderLinks.sort`, force.js:144);
a stable comparator sort, modelled by insertion sort on the same key. -/
def sortLinksDesc : List Link → List Link
  | [] => []
  | a :: as => insertDesc a (sortLinksDesc as)

/-- The render-link list before sorting (force.js:136-143): drop links
whose endpoints lack dense indices, drop links below `minW`, and remap
endpoints to dense indices. -/
def filteredLinks (nodes : List RawNode) (links : List RawLink) (minW : ℚ) : List Link :=
  links.filterMap (fun l =>
    (denseIndex nodes l.source).bind fun si =>
      (denseIndex nodes l.target).bind fun ti =>
        if l.weight < minW then none else some ⟨si, ti, l.weight⟩)

/-- `renderLinks` as built by `loadAndBuild` (force.js:136-144):
filtered links sorted descending by weight. -/
def buildRenderLinks (nodes : List RawNode) (links : List RawLink) (minW : ℚ) : List Link :=
  sortLinksDesc (filteredLinks nodes links minW)

/-- `forceLinks` as built by `loadAndBuild` (force.js:160-169): separate
copies of the first `min(renderLinks.length, maxP)` render links. -/
def buildForceLinks (render : List Link) (maxP : ℕ) : List ForceLink :=
  (render.take maxP).map (fun l => ⟨l.si, l.ti, l.weight⟩)

/-- `medianWeight` as computed by `loadAndBuild` (force.js:146-151):
`weights[Math.floor(weights.length / 2)]` of the sorted render links
when nonempty, else the module initializer `0` (force.js:43). -/
def buildMedianWeight (render : List Link) : ℚ :=
  if 0 < render.length then (render.map Link.weight).getD (render.length / 2) 0 else 0

/-- Descending insertion on plain weights, mirroring `insertDesc`. -/
def insertDescQ (a : ℚ) : List ℚ → List ℚ
  | [] => [a]
  | b :: bs => if b < a then a :: b :: bs else b :: insertDescQ a bs

/-- Descending sort on plain weights, mirroring `sortLinksDesc`. -/
def sortDescQ : List ℚ → List ℚ
  | [] => []
  | a :: as => insertDescQ a (sortDescQ as)

/-- The median rule in the spec's words ("the element at the sorted
midpoint index floor(n/2) of the descending-sorted render-edge weights;
if the render edge set is empty, a configured floor value", here the
floor `0`), stated on the unsorted multiset of render-edge weights. -/
def specMedian (ws : List ℚ) : ℚ :=
  if ws = [] then 0 else (sortDescQ ws).getD (ws.length / 2) 0

/-- The zoom-dependent LOD weight threshold (force.js:356-358):
`k < 0.8 ? median : k < 1.5 ? median * 0.6 : k < 3.0 ? median * 0.3 :
MIN_RENDER_WEIGHT` (with the minimum render weight a parameter). -/
def lodThreshold (k median minW : ℚ) : ℚ :=
  if k < 4/5 then median
  else if k < 3/2 then median * (3/5)
  else if k < 3 then median * (3/10)
  else minW

/-- The render links surviving the LOD cull at zoom `k`
(force.js:379-386: an edge is skipped iff `link.weight < lodThreshold`). -/
def lodSurvivors (render : List Link) (k median minW : ℚ) : List Link :=
  render.filter (fun l => !(decide (l.weight < lodThreshold k median minW)))

/-- The zoom/pan transform `{k, x, y}` (d3 zoom transform, force.js:31). -/
structure Transform where
  k : ℚ
  x : ℚ
  y : ℚ
deriving Repr, DecidableEq

/-- `d3.zoomIdentity`: scale 1, translation 0. -/
def zoomIdentity : Transform := ⟨1, 0, 0⟩

/-- `toScreenX` (force.js:298): world x to screen x under a transform. -/
def toScreenX (t : Transform) (sx : ℚ) : ℚ := sx * t.k + t.x

/-- `toScreenY` (force.js:299): world y to screen y under a transform. -/
def toScreenY (t : Transform) (sy : ℚ) : ℚ := sy * t.k + t.y

/-- `fromScreenX` (force.js:300): screen x back to world x. -/
def fromScreenX (t : Transform) (px : ℚ) : ℚ := (px - t.x) / t.k

/-- `fromScreenY` (force.js:301): screen y back to world y. -/
def fromScreenY (t : Transform) (py : ℚ) : ℚ := (py - t.y) / t.k

/-- A d3-force simulation node (force.js:23, 118-128): position,
velocity, the optional fixed (pinned) position `fx`/`fy` used during
drags, radius, the game-array reference (modelled as an identity
token), title and review count. -/
structure SimNode where
  x : ℚ
  y : ℚ
  vx : ℚ := 0
  vy : ℚ := 0
  fx : Option ℚ := none
  fy : Option ℚ := none
  r : ℚ := 0
  game : Option ℕ := none
  title : String := ""
  reviews : ℚ := 0
deriving Repr, DecidableEq, Inhabited

/-- The fold computing the bounding box minimum used by `fitToScreen`
(force.js:258-264), seeded from `Infinity` — equivalently from the
first element. -/
def foldMin (f : SimNode → ℚ) (init : ℚ) (ns : List SimNode) : ℚ :=
  ns.foldl (fun acc n => min acc (f n)) init

/-- The bounding box maximum fold of `fitToScreen` (force.js:258-264). -/
def foldMax (f : SimNode → ℚ) (init : ℚ) (ns : List SimNode) : ℚ :=
  ns.foldl (fun acc n => max acc (f n)) init

/-- Bounding-box minimum x over a nonempty node list (force.js:258-264). -/
def bboxX0 (n : SimNode) (rest : List SimNode) : ℚ := foldMin SimNode.x n.x rest

/-- Bounding-box maximum x over a nonempty node list. -/
def bboxX1 (n : SimNode) (rest : List SimNode) : ℚ := foldMax SimNode.x n.x rest

/-- Bounding-box minimum y over a nonempty node list. -/
def bboxY0 (n : SimNode) (rest : List SimNode) : ℚ := foldMin SimNode.y n.y rest

/-- Bounding-box maximum y over a nonempty node list. -/
def bboxY1 (n : SimNode) (rest : List SimNode) : ℚ := foldMax SimNode.y n.y rest

/-- `dataW` of `fitToScreen` (force.js:266): the bounding-box width,
with the `(x1 - x0) || 100` branch treating a zero-extent box as 100
world units. -/
def fitDataW (n : SimNode) (rest : List SimNode) : ℚ :=
  if bboxX1 n rest - bboxX0 n rest = 0 then 100 else bboxX1 n rest - bboxX0 n rest

/-- `dataH` of `fitToScreen` (force.js:267). -/
def fitDataH (n : SimNode) (rest : List SimNode) : ℚ :=
  if bboxY1 n rest - bboxY0 n rest = 0 then 100 else bboxY1 n rest - bboxY0 n rest

/-- The fit scale `k` of `fitToScreen` (force.js:268-272), with the
configured padding `pad = 140`. -/
def fitK (width height : ℚ) (n : SimNode) (rest : List SimNode) : ℚ :=
  min ((width - 140) / fitDataW n rest) ((height - 140) / fitDataH n rest)

/-- `fitToScreen` (force.js:255-283): compute the node bounding box,
derive the scale fitting it in the viewport minus the 140px padding,
and center it; with no nodes the transform is left unchanged. -/
def fitToScreen (width height : ℚ) (ns : List SimNode) (t : Transform) : Transform :=
  match ns with
  | [] => t
  | n :: rest =>
    ⟨fitK width height n rest,
     width / 2 - (bboxX0 n rest + bboxX1 n rest) / 2 * fitK width height n rest,
     height / 2 - (bboxY0 n rest + bboxY1 n rest) / 2 * fitK width height n rest⟩

/-- The module-level mutable state of the force view that the settled
claims touch (force.js:19-50): activation flag, load flag, simulation
nodes, viewport transform, interaction state (selection, hover, drag by
dense index), the pending touch-hold timer, whether the simulation's
internal tick timer is running, the three mode strings, and the
viewport size. -/
structure ForceState where
  active : Bool := false
  layoutLoaded : Bool := false
  simNodes : List SimNode := []
  transform : Transform := zoomIdentity
  selectedNode : Option ℕ := none
  hoveredNode : Option ℕ := none
  draggedNode : Option ℕ := none
  touchHoldTimer : Bool := false
  simRunning : Bool := false
  sizeMode : String := "reviews"
  layoutMode : String := "default"
  groupMode : String := "genre"
  width : ℚ := 0
  height : ℚ := 0
deriving Repr, DecidableEq

/-- `deactivate` (force.js:1015-1024): clear the active flag, stop the
simulation's tick timer (`simulation.stop()`), and cancel the pending
touch-hold timer. No other field is assigned. -/
def deactivate (s : ForceState) : ForceState :=
  { s with active := false, simRunning := false, touchHoldTimer := false }

/-- The mode-storage behaviour of `setSizeMode` (force.js:1031-1042):
`sizeMode = mode` with no validation. The subsequent radius
recalculation and reheat act on the node radii and simulation energy,
not on any mode variable. -/
def setSizeMode (s : ForceState) (mode : String) : ForceState :=
  { s with sizeMode := mode }

/-- The mode-storage behaviour of `setLayoutMode` (force.js:1044-1099):
`layoutMode = mode` with no validation (an unrecognized string falls
through to the default force profile, but the stored mode is already
replaced). Force reconfiguration acts on the simulation, not on any
mode variable. -/
def setLayoutMode (s : ForceState) (mode : String) : ForceState :=
  { s with layoutMode := mode }

/-- `setGroupMode` (force.js:1101-1110): rejects any mode other than
`'genre'` or `'community'` at the boundary (early return), otherwise
stores it. -/
def setGroupMode (s : ForceState) (mode : String) : ForceState :=
  if mode = "genre" ∨ mode = "community" then { s with groupMode := mode } else s

/-- A game array passed to `selectGame`, modelled by its object
identity token and its title (`game[0]`). -/
structure Game where
  ref : ℕ
  title : String
deriving Repr, DecidableEq

/-- Whether a simulation node matches the searched game by identical
game reference (`node.game === game`, force.js:1275-1277). -/
def refMatches (g : Game) (n : SimNode) : Bool :=
  n.game == some g.ref

/-- Whether a simulation node matches the searched game by
case-insensitive title equality with a truthy title
(`node.title && node.title.toLowerCase() === title`, force.js:1281). -/
def titleMatches (g : Game) (n : SimNode) : Bool :=
  n.title != "" && n.title.toLower == g.title.toLower

/-- The search target of `selectGame` (force.js:1273-1283): the first
node with an identical game reference, or — failing that — the first
node with a case-insensitively equal, truthy title. -/
def findTarget (ns : List SimNode) (g : Game) : Option ℕ :=
  match ns.findIdx? (refMatches g) with
  | some i => some i
  | none => ns.findIdx? (titleMatches g)

/-- `selectGame` (force.js:1269-1301): bail out returning `false` when
the layout is not loaded or there are no nodes; find the first node
with an identical game reference, falling back to the first node with a
case-insensitively equal title; when none matches return `false`
without touching any state; otherwise zoom the transform onto the node
at scale 6, select and hover it, and return `true`. -/
def selectGame (s : ForceState) (g : Game) : Bool × ForceState :=
  if !s.layoutLoaded || s.simNodes.isEmpty then (false, s)
  else
    match findTarget s.simNodes g with
    | none => (false, s)
    | some i =>
      let n := s.simNodes.getD i default
      let targetK : ℚ := 6
      let tx := s.width / 2 - n.x * targetK
      let ty := s.height / 2 - n.y * targetK
      (true, { s with transform := ⟨targetK, tx, ty⟩,
                      selectedNode := some i, hoveredNode := some i })

/-! ## Simulation ticks and drag pinning

The d3-force integrator (the `simulation.tick` position update the view
relies on for drag pinning, force.js:719-758): after the force pass has
adjusted velocities/positions, each node with a fixed position is
clamped to it with zero velocity, and each free node advances by its
decayed velocity (`node.x += node.vx *= velocityDecay`, else
`node.x = node.fx; node.vx = 0`). The force pass itself is kept
abstract as a function on the node list; the d3 forces installed by
`initSimulation` never assign `fx`/`fy`. -/

/-- The x half of the end-of-tick integration: a node with a fixed x is
clamped to it with zero x-velocity, a free node advances by its decayed
x-velocity. -/
def integrateX (decay : ℚ) (n : SimNode) : SimNode :=
  match n.fx with
  | some fx => { n with x := fx, vx := 0 }
  | none => { n with vx := n.vx * decay, x := n.x + n.vx * decay }

/-- The y half of the end-of-tick integration, symmetric to
`integrateX`. -/
def integrateY (decay : ℚ) (n : SimNode) : SimNode :=
  match n.fy with
  | some fy => { n with y := fy, vy := 0 }
  | none => { n with vy := n.vy * decay, y := n.y + n.vy * decay }

/-- The per-node end-of-tick integration step of d3-force, with
velocity decay `decay`: the x block then the y block. -/
def integrate (decay : ℚ) (n : SimNode) : SimNode :=
  integrateY decay (integrateX decay n)

/-- One simulation tick: run a force pass, then integrate every node. -/
def simTick (forceStep : List SimNode → List SimNode) (decay : ℚ)
    (ns : List SimNode) : List SimNode :=
  (forceStep ns).map (integrate decay)

/-- A sequence of ticks, each with its own force pass (forces receive a
varying alpha, so successive passes differ). -/
def simTicks (steps : List (List SimNode → List SimNode)) (decay : ℚ)
    (ns : List SimNode) : List SimNode :=
  steps.foldl (fun acc f => simTick f decay acc) ns

/-- A force pass that, like every d3 force installed by
`initSimulation` (charge, link, center, collide), never assigns a
node's fixed position `fx`/`fy` and never adds or removes nodes. -/
def PreservesPins (f : List SimNode → List SimNode) : Prop :=
  ∀ (ns : List SimNode) (i : ℕ),
    ((f ns)[i]?).map (fun (n : SimNode) => (n.fx, n.fy))
      = (ns[i]?).map (fun (n : SimNode) => (n.fx, n.fy))

/-- Replace the node at index `i` (node-object mutation, modelled by
position in the dense node list). -/
def updateNode : List SimNode → ℕ → (SimNode → SimNode) → List SimNode
  | [], _, _ => []
  | n :: ns, 0, f => f n :: ns
  | n :: ns, i + 1, f => n :: updateNode ns i f

/-- The pinning effect of `startDrag` (force.js:719-724) on the node
list: `node.fx = node.x; node.fy = node.y`. -/
def startDragPin (ns : List SimNode) (i : ℕ) : List SimNode :=
  updateNode ns i (fun n => { n with fx := some n.x, fy := some n.y })

/-- The pin update of `onDragMove` (force.js:742-743): the fixed
position follows the pointer's world coordinates. -/
def dragMovePin (ns : List SimNode) (i : ℕ) (t : Transform) (mx my : ℚ) : List SimNode :=
  updateNode ns i (fun n => { n with fx := some (fromScreenX t mx),
                                     fy := some (fromScreenY t my) })

/-- The unpinning effect of `onDragEnd` (force.js:746-749):
`draggedNode.fx = null; draggedNode.fy = null`. -/
def endDragUnpin (ns : List SimNode) (i : ℕ) : List SimNode :=
  updateNode ns i (fun n => { n with fx := none, fy := none })

/-! ## Offscreen export -/

/-- The settle loop of `exportRender`'s fresh branch (force.js:1155-1157):
`for (let i = 0; i < 500 && sim.alpha() > 0.001; i++) sim.tick();`
with alpha evolving as `alpha += (0 - alpha) * alphaDecay` per d3 tick. -/
def exportSettle (forceStep : List SimNode → List SimNode)
    (decay alphaDecay : ℚ) : ℕ → ℚ → List SimNode → List SimNode
  | 0, _, ns => ns
  | fuel + 1, alpha, ns =>
    if 1/1000 < alpha then
      exportSettle forceStep decay alphaDecay fuel (alpha - alpha * alphaDecay)
        (simTick forceStep decay ns)
    else ns

/-- The export fit transform of `exportRender` (force.js:1162-1179):
bounding box, 4%-of-width rounded padding per side, centered scale.
`Math.round` is `⌊x + 1/2⌋`. -/
def exportFit (w h : ℚ) (ns : List SimNode) : Transform :=
  match ns with
  | [] => zoomIdentity
  | n :: rest =>
    let x0 := foldMin SimNode.x n.x rest
    let y0 := foldMin SimNode.y n.y rest
    let x1 := foldMax SimNode.x n.x rest
    let y1 := foldMax SimNode.y n.y rest
    let dataW := if x1 - x0 = 0 then 100 else x1 - x0
    let dataH := if y1 - y0 = 0 then 100 else y1 - y0
    let padPx : ℚ := ((w * (4/100) + 1/2).floor : ℤ)
    let k := min ((w - padPx * 2) / dataW) ((h - padPx * 2) / dataH)
    let cx := (x0 + x1) / 2
    let cy := (y0 + y1) / 2
    ⟨k, w / 2 - cx * k, h / 2 - cy * k⟩

/-- The static frame produced by `exportRender`: the screen positions
and radii at which nodes are drawn (force.js:1219-1231). -/
structure ExportFrame where
  nodes : List (ℚ × ℚ × ℚ)
deriving Repr, DecidableEq

/-- `exportRender` (force.js:1126-1267): return `null` when the layout
is not loaded or there are no nodes; otherwise choose positions — for
`layoutSource === 'fresh'`, shallow copies of the live nodes settled by
a fresh simulation (the copies, links included, are separate objects);
otherwise the live nodes — fit them to the export canvas and draw. The
function assigns no module variable, so the live state is returned
unchanged. -/
def exportRender (forceStep : List SimNode → List SimNode) (s : ForceState)
    (w h : ℚ) (fresh : Bool) : Option ExportFrame × ForceState :=
  if !s.layoutLoaded || s.simNodes.isEmpty then (none, s)
  else
    let nodes :=
      if fresh then
        exportSettle forceStep (9/20) (7/250) 500 1
          (s.simNodes.map (fun n => { n with x := n.x, y := n.y }))
      else s.simNodes
    let t := exportFit w h nodes
    let frame : ExportFrame :=
      ⟨nodes.map (fun n =>
        (toScreenX t n.x, toScreenY t n.y, max 1 (n.r * min t.k 4)))⟩
    (some frame, s)

/-- The node at index `i` is pinned at `(x0, y0)`. -/
def PinnedAt (ns : List SimNode) (i : ℕ) (x0 y0 : ℚ) : Prop :=
  ∃ n, ns[i]? = some n ∧ n.fx = some x0 ∧ n.fy = some y0

/-- The node at index `i` is pinned at `(x0, y0)` and its position is
exactly `(x0, y0)`. -/
def HeldAt (ns : List SimNode) (i : ℕ) (x0 y0 : ℚ) : Prop :=
  ∃ n, ns[i]? = some n ∧ n.x = x0 ∧ n.y = y0 ∧ n.fx = some x0 ∧ n.fy = some y0

/-! ## Concrete inputs used by scenarios, counterexamples and witnesses -/

/-- Scenario A's nodes (spec §8): A, B, C with normalized warm-start
positions (0,0), (1,0), (0,1). -/
def scenarioNodes : List RawNode :=
  [⟨"A", "A", some (0, 0)⟩, ⟨"B", "B", some (1, 0)⟩, ⟨"C", "C", some (0, 1)⟩]

/-- Scenario A's raw links: (A,B,10) and (B,C,600). -/
def scenarioLinks : List RawLink := [⟨0, 1, 10⟩, ⟨1, 2, 600⟩]

/-- Scenario A's render edge set, built with minimum render weight 5. -/
def scenarioRender : List Link := buildRenderLinks scenarioNodes scenarioLinks 5

/-- Scenario A's cached median weight. -/
def scenarioMedian : ℚ := buildMedianWeight scenarioRender

/-- Three positioned nodes used for the tied-weight build. -/
def tieNodes : List RawNode :=
  [⟨"a", "a", some (0, 0)⟩, ⟨"b", "b", some (1, 0)⟩, ⟨"c", "c", some (0, 1)⟩]

/-- Two links of equal weight 60, both above the minimum render weight. -/
def tieLinks : List RawLink := [⟨0, 1, 60⟩, ⟨1, 2, 60⟩]

/-- An active view state with a hovered node, a dragged node, a pending
touch-hold timer and a running simulation. -/
def busyState : ForceState :=
  { active := true, layoutLoaded := true,
    simNodes := [{ x := 0, y := 0, game := some 7, title := "Portal" },
                 { x := 10, y := 5, game := some 8, title := "Dota 2" }],
    selectedNode := some 1, hoveredNode := some 0, draggedNode := some 1,
    touchHoldTimer := true, simRunning := true,
    width := 1000, height := 800 }

/-- A one-node list pinned at (3, 4) with nonzero velocity. -/
def pinnedNodes : List SimNode :=
  [{ x := 3, y := 4, vx := 1, vy := 2, fx := some 3, fy := some 4 }]

/-- A one-node unpinned list with unit x-velocity. -/
def freeNodes : List SimNode := [{ x := 0, y := 0, vx := 1 }]

/-- Two spread-out nodes for the fit-to-screen witness. -/
def fitNodes : List SimNode := [{ x := 0, y := 0 }, { x := 100, y := 50 }]

/-- A game matching no node of `busyState` by reference or title. -/
def missingGame : Game := ⟨99, "Half-Life 3"⟩

/-- A view state before any layout has loaded: all defaults. -/
def unloadedState : ForceState := {}

/-! ## Sorting lemmas -/

theorem mem_insertDesc {a x : Link} {l : List Link} :
    x ∈ insertDesc a l ↔ x = a ∨ x ∈ l := by
  induction l with
  | nil => simp [insertDesc]
  | cons b bs ih =>
    simp only [insertDesc]
    split_ifs with h
    · simp [List.mem_cons]
    · simp only [List.mem_cons, ih]
      tauto

theorem pairwise_insertDesc {a : Link} {l : List Link}
    (h : l.Pairwise (fun p q => q.weight ≤ p.weight)) :
    (insertDesc a l).Pairwise (fun p q => q.weight ≤ p.weight) := by
  induction l with
  | nil => simp [insertDesc]
  | cons b bs ih =>
    rcases List.pairwise_cons.mp h with ⟨hb, hbs⟩
    simp only [insertDesc]
    split_ifs with hlt
    · refine List.pairwise_cons.mpr ⟨?_, h⟩
      intro c hc
      rcases List.mem_cons.mp hc with rfl | hc
      · exact le_of_lt hlt
      · exact le_trans (hb c hc) (le_of_lt hlt)
    · refine List.pairwise_cons.mpr ⟨?_, ih hbs⟩
      intro c hc
      rcases mem_insertDesc.mp hc with rfl | hc
      · exact le_of_not_lt hlt
      · exact hb c hc

theorem pairwise_sortLinksDesc (l : List Link) :
    (sortLinksDesc l).Pairwise (fun p q => q.weight ≤ p.weight) := by
  induction l with
  | nil => simp [sortLinksDesc]
  | cons a as ih => exact pairwise_insertDesc ih

theorem mem_sortLinksDesc {x : Link} {l : List Link} :
    x ∈ sortLinksDesc l ↔ x ∈ l := by
  induction l with
  | nil => simp [sortLinksDesc]
  | cons a as ih => simp [sortLinksDesc, mem_insertDesc, ih]

theorem length_insertDesc (a : Link) (l : List Link) :
    (insertDesc a l).length = l.length + 1 := by
  induction l with
  | nil => rfl
  | cons b bs ih =>
    simp only [insertDesc]
    split_ifs with h
    · rfl
    · simp [ih]

theorem length_sortLinksDesc (l : List Link) :
    (sortLinksDesc l).length = l.length := by
  induction l with
  | nil => rfl
  | cons a as ih => simp [sortLinksDesc, length_insertDesc, ih]

theorem map_weight_insertDesc (a : Link) (l : List Link) :
    (insertDesc a l).map Link.weight = insertDescQ a.weight (l.map Link.weight) := by
  induction l with
  | nil => rfl
  | cons b bs ih =>
    simp only [insertDesc, insertDescQ, List.map_cons]
    split_ifs with h
    · rfl
    · simp [ih]

theorem map_weight_sortLinksDesc (l : List Link) :
    (sortLinksDesc l).map Link.weight = sortDescQ (l.map Link.weight) := by
  induction l with
  | nil => rfl
  | cons a as ih => simp [sortLinksDesc, sortDescQ, map_weight_insertDesc, ih]

/-! ## C1: render-edge ordering and the physics prefix -/

/-- C1 (amended): after model build, the render edge set is sorted
descending by weight with ties allowed (non-increasing; the comparator
sort cannot order equal weights strictly), and the physics edge set is
exactly the prefix of the render edge set of length
`min(maxPhysicsEdges, renderEdgeSet.length)`: it has that length and
its `i`-th element carries the same endpoints and weight as the `i`-th
render edge. -/
theorem force_links_head_of_render_sorted_desc (nodes : List RawNode) (links : List RawLink)
    (minW : ℚ) (maxP : ℕ) :
    (buildRenderLinks nodes links minW).Pairwise (fun p q => q.weight ≤ p.weight) ∧
    (buildForceLinks (buildRenderLinks nodes links minW) maxP).length
      = min maxP (buildRenderLinks nodes links minW).length ∧
    ∀ i, i < min maxP (buildRenderLinks nodes links minW).length →
      (buildForceLinks (buildRenderLinks nodes links minW) maxP)[i]?
        = ((buildRenderLinks nodes links minW)[i]?).map
            (fun l => ForceLink.mk l.si l.ti l.weight) := by
  refine ⟨pairwise_sortLinksDesc _, ?_, ?_⟩
  · simp [buildForceLinks]
  · intro i hi
    have hiP : i < maxP := lt_of_lt_of_le hi (min_le_left _ _)
    simp [buildForceLinks, List.getElem?_take_of_lt hiP]

/-- C1 witness: the amended prefix correspondence evaluated at the
concrete tied-weight build, index 0. -/
theorem force_links_head_of_render_sorted_desc_witness :
    (buildForceLinks (buildRenderLinks tieNodes tieLinks MIN_RENDER_WEIGHT) MAX_FORCE_LINKS)[0]?
      = ((buildRenderLinks tieNodes tieLinks MIN_RENDER_WEIGHT)[0]?).map
          (fun l => ForceLink.mk l.si l.ti l.weight) :=
  (force_links_head_of_render_sorted_desc tieNodes tieLinks MIN_RENDER_WEIGHT MAX_FORCE_LINKS).2.2
    0 (by decide)

/-- C1 counterexample: with two input links of equal weight 60 (both at
or above the minimum render weight) the built render edge set is not
sorted *strictly* descending by weight. -/
theorem render_not_strictly_sorted :
    ¬ (buildRenderLinks tieNodes tieLinks MIN_RENDER_WEIGHT).Pairwise
        (fun p q => q.weight < p.weight) := by decide

/-! ## C2: the cached median weight -/

/-- C2: the cached median weight equals the spec's midpoint rule — the
element at index `⌊n/2⌋` of the descending-sorted render-edge weights,
with no averaging of adjacent values for even `n`, and the configured
floor `0` when the render edge set is empty. -/
theorem median_midpoint_no_averaging (nodes : List RawNode) (links : List RawLink)
    (minW : ℚ) :
    buildMedianWeight (buildRenderLinks nodes links minW)
      = specMedian ((filteredLinks nodes links minW).map Link.weight) := by
  unfold buildRenderLinks buildMedianWeight specMedian
  rw [length_sortLinksDesc, map_weight_sortLinksDesc, List.length_map]
  by_cases hF : filteredLinks nodes links minW = []
  · rw [hF]
    simp [sortDescQ]
  · rw [if_pos (List.length_pos.mpr hF), if_neg (by simpa using hF)]

/-! ## C4: Scenario A -/

/-- C4 (amended): for Scenario A (nodes A, B, C; edges (A,B,10) and
(B,C,600); minimum render weight 5) the built render edge set is both
edges sorted `[(B,C,600),(A,B,10)]` (dense indices B=1, C=2, A=0) and
the cached median weight is 10; under LOD culling *both* edges survive
at low zoom — the weight-10 edge sits exactly at the cached median and
the cull drops only edges strictly below the threshold — and both
survive at high zoom. -/
theorem scenario_a_build_and_lod :
    scenarioRender = [⟨1, 2, 600⟩, ⟨0, 1, 10⟩] ∧
    scenarioMedian = 10 ∧
    lodSurvivors scenarioRender (1/2) scenarioMedian 5 = [⟨1, 2, 600⟩, ⟨0, 1, 10⟩] ∧
    lodSurvivors scenarioRender 4 scenarioMedian 5 = [⟨1, 2, 600⟩, ⟨0, 1, 10⟩] := by
  have h1 : scenarioRender = [⟨1, 2, 600⟩, ⟨0, 1, 10⟩] := by decide
  have h2 : scenarioMedian = 10 := by decide
  have htLow : lodThreshold (1/2) 10 5 = 10 := by
    unfold lodThreshold
    norm_num
  have htHigh : lodThreshold 4 10 5 = 5 := by
    unfold lodThreshold
    norm_num
  refine ⟨h1, h2, ?_, ?_⟩
  · rw [h1, h2]
    simp only [lodSurvivors, htLow]
    norm_num [List.filter]
  · rw [h1, h2]
    simp only [lodSurvivors, htHigh]
    norm_num [List.filter]

/-- C4 counterexample: at low zoom (k = 1/2, below the lowest band
cutoff 0.8) the weight-10 edge (A,B) also survives the LOD cull, so it
is false that only the weight-600 edge survives. -/
theorem scenario_a_low_zoom_not_only_600 :
    Link.mk 0 1 10 ∈ lodSurvivors scenarioRender (1/2) scenarioMedian 5 ∧
    (Link.mk 0 1 10).weight ≠ 600 := by
  have h1 : scenarioRender = [⟨1, 2, 600⟩, ⟨0, 1, 10⟩] := by decide
  have h2 : scenarioMedian = 10 := by decide
  have htLow : lodThreshold (1/2) 10 5 = 10 := by
    unfold lodThreshold
    norm_num
  constructor
  · rw [h1, h2]
    simp only [lodSurvivors, htLow]
    norm_num [List.filter]
  · norm_num

/-! ## C5: LOD monotonicity -/

theorem weight_mem_filteredLinks {nodes : List RawNode} {links : List RawLink}
    {minW : ℚ} {l : Link} (h : l ∈ filteredLinks nodes links minW) :
    minW ≤ l.weight := by
  unfold filteredLinks at h
  rcases List.mem_filterMap.mp h with ⟨raw, -, hraw⟩
  rcases Option.bind_eq_some.mp hraw with ⟨si, hsi, hraw2⟩
  rcases Option.bind_eq_some.mp hraw2 with ⟨ti, hti, hraw3⟩
  by_cases hw : raw.weight < minW
  · rw [if_pos hw] at hraw3
    exact absurd hraw3 (by simp)
  · rw [if_neg hw] at hraw3
    cases Option.some.inj hraw3
    exact le_of_not_lt hw

theorem weight_mem_buildRenderLinks {nodes : List RawNode} {links : List RawLink}
    {minW : ℚ} {l : Link} (h : l ∈ buildRenderLinks nodes links minW) :
    minW ≤ l.weight :=
  weight_mem_filteredLinks (mem_sortLinksDesc.mp h)

theorem buildMedianWeight_nonneg (nodes : List RawNode) (links : List RawLink)
    {minW : ℚ} (hmin : 0 ≤ minW) :
    0 ≤ buildMedianWeight (buildRenderLinks nodes links minW) := by
  unfold buildMedianWeight
  split_ifs with h
  · set R := buildRenderLinks nodes links minW with hR
    have hidx : R.length / 2 < (R.map Link.weight).length := by
      rw [List.length_map]
      exact Nat.div_lt_self h (by norm_num)
    have hmem : (R.map Link.weight).getD (R.length / 2) 0 ∈ R.map Link.weight := by
      rw [List.getD_eq_getElem _ _ hidx]
      exact (R.map Link.weight).getElem_mem hidx
    rcases List.mem_map.mp hmem with ⟨l, hl, hw⟩
    rw [← hw]
    exact le_trans hmin (weight_mem_buildRenderLinks hl)
  · exact le_refl 0

theorem length_filter_mono {α : Type} (p q : α → Bool) (l : List α)
    (h : ∀ x ∈ l, p x = true → q x = true) :
    (l.filter p).length ≤ (l.filter q).length := by
  induction l with
  | nil => simp
  | cons a as ih =>
    have ih' := ih (fun x hx => h x (List.mem_cons_of_mem a hx))
    by_cases hp : p a = true
    · have hq := h a (List.mem_cons_self a as) hp
      simp only [List.filter_cons, hp, hq, if_pos, List.length_cons]
      omega
    · have hp' : p a = false := Bool.eq_false_iff.mpr hp
      simp only [List.filter_cons, hp']
      cases hq : q a <;> simp <;> omega

/-- C5: for a fixed built graph (render edge set and cached median as
built, every render-edge weight at or above the minimum render weight
by construction), the number of render edges surviving the
zoom-dependent LOD cull is non-decreasing in the zoom factor `k`
across the threshold bands. -/
theorem lod_cull_monotone_in_zoom (nodes : List RawNode) (links : List RawLink)
    (minW k1 k2 : ℚ) (hmin : 0 ≤ minW) (hk : k1 ≤ k2) :
    (lodSurvivors (buildRenderLinks nodes links minW) k1
        (buildMedianWeight (buildRenderLinks nodes links minW)) minW).length
      ≤ (lodSurvivors (buildRenderLinks nodes links minW) k2
          (buildMedianWeight (buildRenderLinks nodes links minW)) minW).length := by
  set R := buildRenderLinks nodes links minW with hR
  set M := buildMedianWeight R with hM
  have hM0 : 0 ≤ M := buildMedianWeight_nonneg nodes links hmin
  by_cases h3 : k2 < 3
  · have hth : lodThreshold k2 M minW ≤ lodThreshold k1 M minW := by
      have hk13 : k1 < 3 := lt_of_le_of_lt hk h3
      unfold lodThreshold
      split_ifs <;> linarith
    apply length_filter_mono
    intro x _ hpx
    simp only [Bool.not_eq_true', decide_eq_false_iff_not, not_lt] at hpx ⊢
    exact le_trans hth hpx
  · push_neg at h3
    have hall : lodSurvivors R k2 M minW = R := by
      apply List.filter_eq_self.mpr
      intro a ha
      have hw : minW ≤ a.weight := weight_mem_buildRenderLinks ha
      have hth : lodThreshold k2 M minW = minW := by
        unfold lodThreshold
        rw [if_neg (by linarith), if_neg (by linarith), if_neg (by linarith)]
      simp only [hth, Bool.not_eq_true', decide_eq_false_iff_not, not_lt]
      exact hw
    rw [hall]
    exact List.length_filter_le _ _

/-- C5 witness: the monotone cull count evaluated on Scenario A's build
between a low zoom (1/2) and a high zoom (4). -/
theorem lod_cull_monotone_in_zoom_witness :
    (lodSurvivors (buildRenderLinks scenarioNodes scenarioLinks 5) (1/2)
        (buildMedianWeight (buildRenderLinks scenarioNodes scenarioLinks 5)) 5).length
      ≤ (lodSurvivors (buildRenderLinks scenarioNodes scenarioLinks 5) 4
          (buildMedianWeight (buildRenderLinks scenarioNodes scenarioLinks 5)) 5).length :=
  lod_cull_monotone_in_zoom scenarioNodes scenarioLinks 5 (1/2) 4
    (by norm_num) (by norm_num)

/-! ## C3: mode-setter validation -/

/-- C3 (amended): only `setGroupMode` rejects an unrecognized mode
string at its boundary and retains the prior mode; `setSizeMode` and
`setLayoutMode` perform no validation and store whatever string they
are given, replacing the previously active mode. -/
theorem mode_setter_validation (s : ForceState) (mode : String) :
    (¬(mode = "genre" ∨ mode = "community") →
      (setGroupMode s mode).groupMode = s.groupMode) ∧
    (setSizeMode s mode).sizeMode = mode ∧
    (setLayoutMode s mode).layoutMode = mode := by
  refine ⟨?_, rfl, rfl⟩
  intro h
  unfold setGroupMode
  rw [if_neg h]

/-- C3 witness: the amended rejection behaviour evaluated on a concrete
state and the unrecognized mode string "bogus". -/
theorem mode_setter_validation_witness :
    (setGroupMode busyState "bogus").groupMode = busyState.groupMode :=
  (mode_setter_validation busyState "bogus").1 (by decide)

/-- C3 counterexample: `setSizeMode` does not reject the unrecognized
mode string "bogus" — it replaces the previously active mode
"reviews", so the prior mode is not retained. -/
theorem set_size_mode_not_validated :
    (setSizeMode busyState "bogus").sizeMode = "bogus" ∧
    busyState.sizeMode = "reviews" ∧ ("bogus" : String) ≠ "reviews" :=
  ⟨rfl, rfl, by decide⟩

/-! ## C7: deactivation -/

/-- C7 (amended): `deactivate` clears the active flag, stops the
simulation's internal tick timer (so no tick fires until a later
restart) and cancels the pending touch-hold timer, but it leaves the
hover state, the drag session and the selection untouched. -/
theorem deactivate_stops_sim_keeps_pointer_state (s : ForceState) :
    (deactivate s).active = false ∧
    (deactivate s).simRunning = false ∧
    (deactivate s).touchHoldTimer = false ∧
    (deactivate s).hoveredNode = s.hoveredNode ∧
    (deactivate s).draggedNode = s.draggedNode ∧
    (deactivate s).selectedNode = s.selectedNode ∧
    (deactivate s).simNodes = s.simNodes ∧
    (deactivate s).transform = s.transform :=
  ⟨rfl, rfl, rfl, rfl, rfl, rfl, rfl, rfl⟩

/-- C7 counterexample: deactivating a state with a hovered node and an
in-progress drag leaves both set — the hover state and the drag
session are not cleared. -/
theorem deactivate_keeps_hover_and_drag :
    (deactivate busyState).hoveredNode = some 0 ∧
    (deactivate busyState).draggedNode = some 1 ∧
    some 0 ≠ (none : Option ℕ) ∧ some 1 ≠ (none : Option ℕ) :=
  ⟨rfl, rfl, by decide, by decide⟩

/-! ## C6: drag pinning across ticks -/

theorem integrateX_of_fx_some (d : ℚ) (n : SimNode) (x0 : ℚ) (h : n.fx = some x0) :
    integrateX d n = { n with x := x0, vx := 0 } := by
  unfold integrateX
  rw [h]

theorem integrateY_of_fy_some (d : ℚ) (n : SimNode) (y0 : ℚ) (h : n.fy = some y0) :
    integrateY d n = { n with y := y0, vy := 0 } := by
  unfold integrateY
  rw [h]

theorem integrate_of_pinned (d : ℚ) (n : SimNode) (x0 y0 : ℚ)
    (h1 : n.fx = some x0) (h2 : n.fy = some y0) :
    integrate d n = { n with x := x0, vx := 0, y := y0, vy := 0 } := by
  unfold integrate
  rw [integrateX_of_fx_some d n x0 h1,
    integrateY_of_fy_some d ({ n with x := x0, vx := 0 }) y0 h2]

theorem getElem?_updateNode_self (ns : List SimNode) (i : ℕ) (f : SimNode → SimNode)
    (n : SimNode) (h : ns[i]? = some n) :
    (updateNode ns i f)[i]? = some (f n) := by
  induction ns generalizing i with
  | nil => simp at h
  | cons a as ih =>
    cases i with
    | zero =>
      simp only [List.getElem?_cons_zero, Option.some.injEq] at h
      subst h
      simp [updateNode]
    | succ j =>
      simp only [List.getElem?_cons_succ] at h
      simpa [updateNode] using ih j h

theorem simTick_pinned (f : List SimNode → List SimNode) (hf : PreservesPins f)
    (d : ℚ) (ns : List SimNode) (i : ℕ) (x0 y0 : ℚ) (hp : PinnedAt ns i x0 y0) :
    HeldAt (simTick f d ns) i x0 y0 := by
  obtain ⟨n, hn, hfx, hfy⟩ := hp
  have hpres := hf ns i
  rw [hn] at hpres
  cases hm : (f ns)[i]? with
  | none =>
    rw [hm] at hpres
    simp at hpres
  | some m =>
    rw [hm] at hpres
    simp only [Option.map_some', Option.some.injEq, Prod.mk.injEq] at hpres
    obtain ⟨e1, e2⟩ := hpres
    have hint := integrate_of_pinned d m x0 y0 (e1.trans hfx) (e2.trans hfy)
    refine ⟨integrate d m, ?_, ?_, ?_, ?_, ?_⟩
    · simp [simTick, List.getElem?_map, hm]
    · rw [hint]
    · rw [hint]
    · rw [hint]
      exact e1.trans hfx
    · rw [hint]
      exact e2.trans hfy

theorem PinnedAt_of_HeldAt {ns : List SimNode} {i : ℕ} {x0 y0 : ℚ}
    (h : HeldAt ns i x0 y0) : PinnedAt ns i x0 y0 := by
  obtain ⟨n, hn, -, -, hfx, hfy⟩ := h
  exact ⟨n, hn, hfx, hfy⟩

theorem simTicks_held (steps : List (List SimNode → List SimNode)) (d : ℚ)
    (ns : List SimNode) (i : ℕ) (x0 y0 : ℚ)
    (hsteps : ∀ g ∈ steps, PreservesPins g) (h : HeldAt ns i x0 y0) :
    HeldAt (simTicks steps d ns) i x0 y0 := by
  induction steps generalizing ns with
  | nil => exact h
  | cons f rest ih =>
    have hf := hsteps f (List.mem_cons_self f rest)
    have h1 : HeldAt (simTick f d ns) i x0 y0 :=
      simTick_pinned f hf d ns i x0 y0 (PinnedAt_of_HeldAt h)
    exact ih (simTick f d ns) (fun g hg => hsteps g (List.mem_cons_of_mem f hg)) h1

/-- C6: `startDrag` pins the dragged node at its current position; a
node pinned at `(x0, y0)` is left by every subsequent simulation tick —
any number of ticks whose force passes never assign fixed positions, as
d3's forces do not — exactly at `(x0, y0)`, still pinned; `onDragEnd`
releases the pin; and an unpinned node's position is free to evolve: a
pin-preserving force pass exists after which one tick moves the node. -/
theorem drag_pin_holds_until_unpin :
    (∀ (ns : List SimNode) (i : ℕ) (n : SimNode), ns[i]? = some n →
      (startDragPin ns i)[i]? = some { n with fx := some n.x, fy := some n.y }) ∧
    (∀ (f : List SimNode → List SimNode) (steps : List (List SimNode → List SimNode))
        (d : ℚ) (ns : List SimNode) (i : ℕ) (x0 y0 : ℚ),
      PreservesPins f → (∀ g ∈ steps, PreservesPins g) → PinnedAt ns i x0 y0 →
      ∃ n, (simTicks (f :: steps) d ns)[i]? = some n ∧
        n.x = x0 ∧ n.y = y0 ∧ n.fx = some x0 ∧ n.fy = some y0) ∧
    (∀ (ns : List SimNode) (i : ℕ) (n : SimNode), ns[i]? = some n →
      (endDragUnpin ns i)[i]? = some { n with fx := none, fy := none }) ∧
    (∃ (f : List SimNode → List SimNode) (d : ℚ) (ns : List SimNode) (n m : SimNode),
      PreservesPins f ∧ ns[0]? = some n ∧ n.fx = none ∧ n.fy = none ∧
      (simTick f d ns)[0]? = some m ∧ m.x ≠ n.x) := by
  refine ⟨?_, ?_, ?_, ?_⟩
  · intro ns i n h
    exact getElem?_updateNode_self ns i _ n h
  · intro f steps d ns i x0 y0 hf hsteps hp
    have h1 : HeldAt (simTick f d ns) i x0 y0 := simTick_pinned f hf d ns i x0 y0 hp
    exact simTicks_held steps d _ i x0 y0 hsteps h1
  · intro ns i n h
    exact getElem?_updateNode_self ns i _ n h
  · refine ⟨fun ms => ms, 1, freeNodes, _, _, fun ms j => rfl, rfl, rfl, rfl, rfl, ?_⟩
    show ((0 : ℚ) + 1 * 1) ≠ (0 : ℚ)
    norm_num

/-- C6 witness: one pin-preserving tick on the concrete pinned node
list leaves the node exactly at its pin (3, 4). -/
theorem drag_pin_holds_until_unpin_witness :
    ∃ n, (simTicks [fun ms => ms] 1 pinnedNodes)[0]? = some n ∧
      n.x = 3 ∧ n.y = 4 ∧ n.fx = some 3 ∧ n.fy = some 4 :=
  drag_pin_holds_until_unpin.2.1 (fun ms => ms) [] 1 pinnedNodes 0 3 4
    (fun ms j => rfl) (by simp) ⟨_, rfl, rfl, rfl⟩

/-! ## C8: fit-to-screen bounds -/

theorem foldMin_le_init (f : SimNode → ℚ) (init : ℚ) (ns : List SimNode) :
    foldMin f init ns ≤ init := by
  induction ns generalizing init with
  | nil => simp [foldMin]
  | cons a as ih =>
    exact le_trans (ih (min init (f a))) (min_le_left _ _)

theorem foldMin_le_mem (f : SimNode → ℚ) (init : ℚ) {ns : List SimNode} {n : SimNode}
    (h : n ∈ ns) : foldMin f init ns ≤ f n := by
  induction ns generalizing init with
  | nil => cases h
  | cons a as ih =>
    rcases List.mem_cons.mp h with rfl | h'
    · exact le_trans (foldMin_le_init f (min init (f n)) as) (min_le_right _ _)
    · exact ih (min init (f a)) h'

theorem init_le_foldMax (f : SimNode → ℚ) (init : ℚ) (ns : List SimNode) :
    init ≤ foldMax f init ns := by
  induction ns generalizing init with
  | nil => simp [foldMax]
  | cons a as ih =>
    exact le_trans (le_max_left _ _) (ih (max init (f a)))

theorem mem_le_foldMax (f : SimNode → ℚ) (init : ℚ) {ns : List SimNode} {n : SimNode}
    (h : n ∈ ns) : f n ≤ foldMax f init ns := by
  induction ns generalizing init with
  | nil => cases h
  | cons a as ih =>
    rcases List.mem_cons.mp h with rfl | h'
    · exact le_trans (le_max_right _ _) (init_le_foldMax f (max init (f n)) as)
    · exact ih (max init (f a)) h'

theorem fit_coord_in_bounds (size dataD c v k : ℚ)
    (_hsize : 140 < size) (hd : 0 < dataD)
    (hlo : c - dataD / 2 ≤ v) (hhi : v ≤ c + dataD / 2)
    (hk0 : 0 ≤ k) (hk : k ≤ (size - 140) / dataD) :
    70 ≤ v * k + (size / 2 - c * k) ∧ v * k + (size / 2 - c * k) ≤ size - 70 := by
  have hdk : k * dataD ≤ size - 140 := (le_div_iff₀ hd).mp hk
  have h1 : (v - c) * k ≤ (dataD / 2) * k :=
    mul_le_mul_of_nonneg_right (by linarith) hk0
  have h2 : (dataD / 2) * k = (k * dataD) / 2 := by ring
  have h3 : (-(dataD / 2)) * k ≤ (v - c) * k :=
    mul_le_mul_of_nonneg_right (by linarith) hk0
  have h4 : (-(dataD / 2)) * k = -((k * dataD) / 2) := by ring
  have h5 : v * k + (size / 2 - c * k) = size / 2 + (v - c) * k := by ring
  constructor <;> rw [h5] <;> linarith

/-- C8: for every nonempty node set and viewport strictly larger than
the configured 140px padding, `fitToScreen` produces a transform under
which every node's world position maps to a screen coordinate inside
the viewport inset by the padding (half of the 140px total on each
side). -/
theorem fit_to_screen_in_bounds (width height : ℚ) (ns : List SimNode)
    (t0 : Transform) (n : SimNode)
    (hn : n ∈ ns) (hw : 140 < width) (hh : 140 < height) :
    70 ≤ toScreenX (fitToScreen width height ns t0) n.x ∧
    toScreenX (fitToScreen width height ns t0) n.x ≤ width - 70 ∧
    70 ≤ toScreenY (fitToScreen width height ns t0) n.y ∧
    toScreenY (fitToScreen width height ns t0) n.y ≤ height - 70 := by
  cases ns with
  | nil => cases hn
  | cons hd rest =>
    have hx0n : bboxX0 hd rest ≤ n.x := by
      rcases List.mem_cons.mp hn with rfl | h'
      · exact foldMin_le_init _ _ _
      · exact foldMin_le_mem _ _ h'
    have hnx1 : n.x ≤ bboxX1 hd rest := by
      rcases List.mem_cons.mp hn with rfl | h'
      · exact init_le_foldMax _ _ _
      · exact mem_le_foldMax _ _ h'
    have hy0n : bboxY0 hd rest ≤ n.y := by
      rcases List.mem_cons.mp hn with rfl | h'
      · exact foldMin_le_init _ _ _
      · exact foldMin_le_mem _ _ h'
    have hny1 : n.y ≤ bboxY1 hd rest := by
      rcases List.mem_cons.mp hn with rfl | h'
      · exact init_le_foldMax _ _ _
      · exact mem_le_foldMax _ _ h'
    have hdW : 0 < fitDataW hd rest ∧
        (bboxX0 hd rest + bboxX1 hd rest) / 2 - fitDataW hd rest / 2 ≤ n.x ∧
        n.x ≤ (bboxX0 hd rest + bboxX1 hd rest) / 2 + fitDataW hd rest / 2 := by
      unfold fitDataW
      split_ifs with h0
      · refine ⟨by norm_num, by linarith, by linarith⟩
      · have : bboxX0 hd rest < bboxX1 hd rest :=
          lt_of_le_of_ne (le_trans hx0n hnx1) (fun he => h0 (by rw [he]; ring))
        refine ⟨by linarith, by linarith, by linarith⟩
    have hdH : 0 < fitDataH hd rest ∧
        (bboxY0 hd rest + bboxY1 hd rest) / 2 - fitDataH hd rest / 2 ≤ n.y ∧
        n.y ≤ (bboxY0 hd rest + bboxY1 hd rest) / 2 + fitDataH hd rest / 2 := by
      unfold fitDataH
      split_ifs with h0
      · refine ⟨by norm_num, by linarith, by linarith⟩
      · have : bboxY0 hd rest < bboxY1 hd rest :=
          lt_of_le_of_ne (le_trans hy0n hny1) (fun he => h0 (by rw [he]; ring))
        refine ⟨by linarith, by linarith, by linarith⟩
    have hk0 : 0 ≤ fitK width height hd rest :=
      le_min (div_nonneg (by linarith) hdW.1.le) (div_nonneg (by linarith) hdH.1.le)
    have hbx := fit_coord_in_bounds width (fitDataW hd rest)
      ((bboxX0 hd rest + bboxX1 hd rest) / 2) n.x (fitK width height hd rest)
      hw hdW.1 (by linarith [hdW.2.1]) (by linarith [hdW.2.2]) hk0 (min_le_left _ _)
    have hby := fit_coord_in_bounds height (fitDataH hd rest)
      ((bboxY0 hd rest + bboxY1 hd rest) / 2) n.y (fitK width height hd rest)
      hh hdH.1 (by linarith [hdH.2.1]) (by linarith [hdH.2.2]) hk0 (min_le_right _ _)
    exact ⟨hbx.1, hbx.2, hby.1, hby.2⟩

/-- C8 witness: the fit bounds evaluated at a concrete two-node list in
a 1000 by 800 viewport, at the node positioned at the origin. -/
theorem fit_to_screen_in_bounds_witness :
    70 ≤ toScreenX (fitToScreen 1000 800 fitNodes zoomIdentity) ({ x := 0, y := 0 } : SimNode).x ∧
    toScreenX (fitToScreen 1000 800 fitNodes zoomIdentity) ({ x := 0, y := 0 } : SimNode).x ≤ 1000 - 70 ∧
    70 ≤ toScreenY (fitToScreen 1000 800 fitNodes zoomIdentity) ({ x := 0, y := 0 } : SimNode).y ∧
    toScreenY (fitToScreen 1000 800 fitNodes zoomIdentity) ({ x := 0, y := 0 } : SimNode).y ≤ 800 - 70 :=
  fit_to_screen_in_bounds 1000 800 fitNodes zoomIdentity { x := 0, y := 0 }
    (by simp [fitNodes]) (by norm_num) (by norm_num)

/-! ## C9: selectGame -/

theorem exists_of_findIdx?_eq_some {α : Type} {p : α → Bool} {l : List α} {i : ℕ}
    (h : l.findIdx? p = some i) : ∃ x ∈ l, p x = true := by
  by_contra hno
  push_neg at hno
  have hnone : l.findIdx? p = none :=
    List.findIdx?_eq_none_iff.mpr (fun x hx => by simpa using hno x hx)
  rw [hnone] at h
  exact Option.noConfusion h

theorem exists_of_findTarget_eq_some {ns : List SimNode} {g : Game} {i : ℕ}
    (h : findTarget ns g = some i) :
    ∃ n ∈ ns, (refMatches g n || titleMatches g n) = true := by
  unfold findTarget at h
  cases href : ns.findIdx? (refMatches g) with
  | some j =>
    rcases exists_of_findIdx?_eq_some href with ⟨n, hn, hp⟩
    exact ⟨n, hn, by simp [hp]⟩
  | none =>
    rw [href] at h
    rcases exists_of_findIdx?_eq_some h with ⟨n, hn, hp⟩
    exact ⟨n, hn, by simp [hp]⟩

theorem findTarget_eq_none_iff {ns : List SimNode} {g : Game} :
    findTarget ns g = none ↔
      ∀ n ∈ ns, (refMatches g n || titleMatches g n) = false := by
  unfold findTarget
  cases href : ns.findIdx? (refMatches g) with
  | some j =>
    simp only [reduceCtorEq, false_iff]
    intro hall
    rcases exists_of_findIdx?_eq_some href with ⟨n, hn, hp⟩
    have := hall n hn
    rw [hp] at this
    simp at this
  | none =>
    rw [List.findIdx?_eq_none_iff]
    have hr := List.findIdx?_eq_none_iff.mp href
    constructor
    · intro hall n hn
      rw [hr n hn, hall n hn]
      rfl
    · intro hall n hn
      have := hall n hn
      rw [hr n hn] at this
      simpa using this

/-- C9: `selectGame` returns `true` exactly when the layout is loaded
and some simulation node matches the game — by identical game
reference, or failing that by case-insensitive title equality — and
whenever it returns `false` (no match, layout not loaded, or no nodes)
the whole view state, in particular the viewport transform, selection
and hover, is left unchanged. -/
theorem select_game_true_iff_match (s : ForceState) (g : Game) :
    ((selectGame s g).1 = true ↔
      s.layoutLoaded = true ∧ ∃ n ∈ s.simNodes, (refMatches g n || titleMatches g n) = true) ∧
    ((selectGame s g).1 = false → (selectGame s g).2 = s) := by
  constructor
  · unfold selectGame
    split
    · rename_i hcond
      simp only [Bool.or_eq_true, Bool.not_eq_true'] at hcond
      constructor
      · intro hfalse
        exact absurd hfalse (by simp)
      · rintro ⟨hL, n, hn, -⟩
        exfalso
        rcases hcond with h1 | h2
        · rw [hL] at h1
          exact Bool.noConfusion h1
        · rw [List.isEmpty_iff.mp h2] at hn
          cases hn
    · rename_i hcond
      have hL : s.layoutLoaded = true := by
        by_contra hL'
        exact hcond (by simp [Bool.eq_false_iff.mpr hL'])
      split
      · rename_i htgt
        constructor
        · intro hfalse
          exact absurd hfalse (by simp)
        · rintro ⟨-, n, hn, hmatch⟩
          rw [findTarget_eq_none_iff.mp htgt n hn] at hmatch
          exact Bool.noConfusion hmatch
      · rename_i i htgt
        exact ⟨fun _ => ⟨hL, exists_of_findTarget_eq_some htgt⟩, fun _ => rfl⟩
  · unfold selectGame
    split
    · intro _
      rfl
    · split
      · intro _
        rfl
      · intro hfalse
        exact absurd hfalse (by simp)

/-- C9 witness: searching a state whose layout has not loaded returns
`false` and leaves the state unchanged. -/
theorem select_game_true_iff_match_witness :
    (selectGame unloadedState missingGame).1 = false ∧
    (selectGame unloadedState missingGame).2 = unloadedState := by
  have h := select_game_true_iff_match unloadedState missingGame
  have hfalse : (selectGame unloadedState missingGame).1 = false := by decide
  exact ⟨hfalse, h.2 hfalse⟩

/-! ## C10: offscreen export purity -/

/-- C10: `exportRender` never mutates the live view state: for every
width/height and either layout source (`fresh` or live), the returned
state — live node positions, viewport transform, simulation flags —
is exactly the input state (the fresh path simulates only on copied
node objects), and the result is `null` precisely when the layout is
not loaded or the node set is empty. -/
theorem export_render_pure (f : List SimNode → List SimNode) (s : ForceState)
    (w h : ℚ) (fresh : Bool) :
    (exportRender f s w h fresh).2 = s ∧
    ((exportRender f s w h fresh).1 = none ↔
      s.layoutLoaded = false ∨ s.simNodes = []) := by
  unfold exportRender
  by_cases hc : (!s.layoutLoaded || s.simNodes.isEmpty) = true
  · rw [if_pos hc]
    refine ⟨rfl, ?_⟩
    simp only [true_iff]
    simpa [Bool.or_eq_true, Bool.not_eq_true', List.isEmpty_iff] using hc
  · rw [if_neg hc]
    refine ⟨rfl, ?_⟩
    constructor
    · intro hnone
      exact absurd hnone (by simp)
    · intro hor
      exfalso
      apply hc
      rcases hor with h1 | h2
      · simp [h1]
      · simp [h2]

end SteamForce
